import Mathlib

/-!
Shallow embedding of `src/etl_pipeline.py` (the volume transformation
pipeline of the ao_traffic_project repository): the per-file cleaning and
aggregation algorithm `process_csv_file`, the nested-archive walk
`process_zip_file`, the site selector `map_suburb_2_site`, and the driver
loop of `main`.  Tables are lists of typed records; pandas cells that can
carry values of several runtime types are modelled by the tagged union
`PdVal`; missing cells (NaN) are modelled by `Option`; exceptions are
modelled by `Except Err`.
-/

namespace EtlPipeline

/-- A pandas cell value tagged with its runtime type.  Needed because the
`melt` call puts the *column labels* (strings) into the `hour` column, so the
`hour` column's runtime type is part of the program's observable behaviour. -/
inductive PdVal where
  | int (i : Int)
  | str (s : String)
  deriving DecidableEq, Repr

/-- The fixed allow-list `SELECTED_SUBURBS` of the source, verbatim. -/
def SELECTED_SUBURBS : List String :=
  ["East Melbourne", "Richmond", "Cremorne", "Jolimont", "Melbourne",
   "South Yarra", "Southbank", "South Melbourne", "Fitzroy", "Collingwood"]

/-- A row of the processed site table `site_suburb.csv` (columns `site_id`,
`site_name`, `suburb`), as read back by `map_suburb_2_site`.  `pd.read_csv`
without a dtype reads `site_id` as a 64-bit integer; we model it as `Int`. -/
structure SiteRecord where
  site_id : Int
  site_name : String
  suburb : String
  deriving DecidableEq, Repr

/-- Two's-complement wraparound into the signed 16-bit range, the effect of
numpy's value-changing `astype("int16")` conversion on an out-of-range
integer. -/
def int16wrap (n : Int) : Int := (n + 32768) % 65536 - 32768

/-- Embedding of `map_suburb_2_site`: select the rows whose `suburb` is a
member of `SELECTED_SUBURBS` (pandas `isin`, exact string equality), project
to `site_id`, and apply `.astype("int16")`. -/
def map_suburb_2_site (site_df : List SiteRecord) : List Int :=
  (site_df.filter (fun r => SELECTED_SUBURBS.contains r.suburb)).map
    (fun r => int16wrap r.site_id)

/-- The error outcomes of the pipeline that the embedding distinguishes:
`parseError` for `pd.read_csv` failures (an NA value in a column read under
an integer dtype), `archiveError` for a corrupt inner archive
(`zipfile.BadZipFile`), and `concatError` for `pd.concat` applied to an
empty list of tables (`ValueError`). -/
inductive Err where
  | parseError
  | archiveError
  | concatError
  deriving DecidableEq, Repr

/-- One raw CSV row as text: the three columns read under an integer dtype
(`NB_SCATS_SITE`, `NB_DETECTOR`, `CT_RECORDS`) are `Option Int` (`none` is a
missing cell, which `pd.read_csv` rejects for an integer dtype); the
interval datetime is kept as an opaque string (`pd.to_datetime` is modelled
as the identity on well-formed dates, no claim exercises a malformed date);
`vols` are the `V`-prefixed quarter-hour columns in chronological file
order, read without a dtype, so a missing cell is NaN (`none`).  The
dropped columns (`NM_REGION`, `QT_VOLUME_24HOUR`, `CT_ALARM_24HOUR`) carry
no information used downstream and are not represented; the fixed retained
schema is structural in this record type. -/
structure RawCsvRow where
  nb_scats_site : Option Int
  qt_interval_count : String
  nb_detector : Option Int
  ct_records : Option Int
  vols : List (Option Int)
  deriving DecidableEq, Repr

/-- A parsed row after `pd.read_csv(csv_file, dtype=CSV_DTYPES)` and the
`rename` call: the integer-dtyped columns are plain integers (they can no
longer be missing), the volume cells can still be missing. -/
structure RawRow where
  site_id : Int
  datetime : String
  detector_id : Int
  working_period_count : Int
  vols : List (Option Int)
  deriving DecidableEq, Repr

instance {ε α : Type} [DecidableEq ε] [DecidableEq α] :
    DecidableEq (Except ε α) := fun x y =>
  match x, y with
  | .ok a, .ok b =>
    if h : a = b then isTrue (h ▸ rfl)
    else isFalse (fun hc => h (Except.ok.inj hc))
  | .error a, .error b =>
    if h : a = b then isTrue (h ▸ rfl)
    else isFalse (fun hc => h (Except.error.inj hc))
  | .ok _, .error _ => isFalse (fun hc => Except.noConfusion hc)
  | .error _, .ok _ => isFalse (fun hc => Except.noConfusion hc)

/-- Effectful map over a list in the `Except` monad, processing elements
left to right and stopping at the first error — the order in which the
pandas calls raise. -/
def exceptMap (f : α → Except Err β) : List α → Except Err (List β)
  | [] => .ok []
  | a :: as => do
    let b ← f a
    let bs ← exceptMap f as
    .ok (b :: bs)

/-- Parse of one cell of a column read under an explicit integer dtype: a
missing value makes `pd.read_csv` raise for the whole file. -/
def parseIntCell (c : Option Int) : Except Err Int :=
  match c with
  | none => .error .parseError
  | some v => .ok v

/-- Parse of one raw row under `CSV_DTYPES`. -/
def parseRow (r : RawCsvRow) : Except Err RawRow := do
  let s ← parseIntCell r.nb_scats_site
  let d ← parseIntCell r.nb_detector
  let w ← parseIntCell r.ct_records
  .ok ⟨s, r.qt_interval_count, d, w, r.vols⟩

/-- Embedding of `pd.read_csv(csv_file, dtype=CSV_DTYPES)` followed by the
column drop and rename: the whole file parses, or the whole call raises. -/
def read_csv (rows : List RawCsvRow) : Except Err (List RawRow) :=
  exceptMap parseRow rows

/-- Value of a volume cell after `df.fillna(0)`. -/
def fillZero (c : Option Int) : Int := c.getD 0

/-- Embedding of `(df[volume_cols] > 0).any(axis=1)`: a NaN cell compares
as not-greater-than-zero in pandas. -/
def hasPositive (vols : List (Option Int)) : Bool :=
  vols.any (fun c => match c with
    | some v => decide (0 < v)
    | none => false)

/-- Embedding of `neg_mask.sum(axis=1)`: the number of negative volume
cells of the row (the mask is computed after `fillna`, and a filled NaN is
0, not negative, so only originally-present negative values count). -/
def negCount (vols : List (Option Int)) : Nat :=
  (vols.map fillZero).countP (fun v => decide (v < 0))

/-- The volume cells after `fillna(0)`, the negative-mask replacement by 0,
and the `astype("int16")` conversion. -/
def correctedVols (vols : List (Option Int)) : List Int :=
  vols.map (fun c => int16wrap (if fillZero c < 0 then 0 else fillZero c))

/-- Embedding of `df[volume_cols[h*4 : (h+1)*4]].sum(axis=1)` for one row:
the sum of the (at most) four corrected cells at chronological positions
`4h .. 4h+3` (0-indexed).  The pandas sum is performed in 64-bit width, so
no further wraparound applies to the sum itself. -/
def hourVolume (cv : List Int) (h : Nat) : Int := ((cv.drop (h * 4)).take 4).sum

/-- A row of the intermediate wide table: identifier columns plus the 24
hourly volumes (hours 1..24 at positions 0..23). -/
structure WideRow where
  site_id : Int
  datetime : String
  detector_id : Int
  working_period_count : Int
  hourly : List Int
  deriving DecidableEq, Repr

/-- Per-row cleaning: decrement `working_period_count` by the number of
negative cells (the subtraction is promoted to 64-bit by pandas, so it is
exact and unclamped) and compute the 24 hourly sums over the corrected
cells. -/
def cleanRow (r : RawRow) : WideRow :=
  { site_id := r.site_id
    datetime := r.datetime
    detector_id := r.detector_id
    working_period_count := r.working_period_count - (negCount r.vols : Int)
    hourly := (List.range 24).map (fun h => hourVolume (correctedVols r.vols) h) }

/-- A row of the output table, in the column order of the source's final
projection.  `hour` is a `PdVal` because `melt` fills it with the hourly
*column labels*, which the source builds as the strings `f"{h+1}"`. -/
structure OutRow where
  datetime : String
  hour : PdVal
  site_id : Int
  detector_id : Int
  volume : Int
  working_period_count : Int
  deriving DecidableEq, Repr

/-- The output row produced from wide row `w` for hourly column `h`
(0-indexed; the column label, hence the `hour` value, is the string for
`h + 1`). -/
def meltRow (h : Nat) (w : WideRow) : OutRow :=
  { datetime := w.datetime
    hour := .str (toString (h + 1))
    site_id := w.site_id
    detector_id := w.detector_id
    volume := w.hourly.getD h 0
    working_period_count := w.working_period_count }

/-- Embedding of `df.melt(...)`: pandas stacks the value columns
variable-major — all rows for hourly column "1" first, then for "2", and so
on. -/
def melt (ws : List WideRow) : List OutRow :=
  (List.range 24).flatMap (fun h => ws.map (meltRow h))

/-- The rows surviving the two filters of `process_csv_file`, in order:
`df["site_id"].isin(selected_sites)` first, then
`(df[volume_cols] > 0).any(axis=1)` on the raw (pre-fill, pre-correction)
cells. -/
def survivors (rows : List RawRow) (sel : List Int) : List RawRow :=
  (rows.filter (fun r => sel.contains r.site_id)).filter
    (fun r => hasPositive r.vols)

/-- Embedding of `process_csv_file`: parse, filter, clean, aggregate,
reshape.  The `pd.to_datetime` conversion is modelled as the identity on
the (opaque) date strings. -/
def process_csv_file (csv : List RawCsvRow) (sel : List Int) :
    Except Err (List OutRow) := do
  let rows ← read_csv csv
  .ok (melt ((survivors rows sel).map cleanRow))

/-- The rows of a successful result; an errored result has no rows. -/
def outRows (e : Except Err (List OutRow)) : List OutRow :=
  e.toOption.getD []

/-- The parsed rows of a CSV file, when the file parses at all. -/
def rowsOfCsv (csv : List RawCsvRow) : List RawRow :=
  match read_csv csv with
  | .ok rows => rows
  | .error _ => []

/-- The surviving rows of a CSV file, when the file parses at all. -/
def survivorsOfCsv (csv : List RawCsvRow) (sel : List Int) : List RawRow :=
  match read_csv csv with
  | .ok rows => survivors rows sel
  | .error _ => []

/-- An entry of the outer yearly archive: opening it as a zip either fails
(`zipfile.BadZipFile` on corrupt or non-zip bytes) or yields a list of named
inner entries, each entry's content modelled as raw CSV rows (the content of
a non-`.csv` entry is never read, so this representation loses nothing). -/
inductive ChildEntry where
  | corrupt
  | archive (entries : List (String × List RawCsvRow))
  deriving DecidableEq, Repr

/-- A yearly outer archive: its named entries, in `namelist()` order. -/
structure OuterArchive where
  entries : List (String × ChildEntry)
  deriving DecidableEq, Repr

/-- Ordering of named entries by name: lexicographic by code points over
the character sequences, which is the order of Python's `sorted` on the
entry-name strings (and agrees with `String` order, see
`String.le_iff_toList_le`). -/
def nameLE (a b : String × α) : Prop := a.1.toList ≤ b.1.toList

instance : DecidableRel (@nameLE α) := fun a b =>
  inferInstanceAs (Decidable (a.1.toList ≤ b.1.toList))

instance : IsTotal (String × α) nameLE := ⟨fun a b => le_total a.1.toList b.1.toList⟩

instance : IsTrans (String × α) nameLE := ⟨fun _ _ _ h h2 => le_trans h h2⟩

/-- Embedding of Python's `sorted(...)` over entry names: a stable sort by
name (Python's sort is stable; with the distinct names of zip entries any
sort by name agrees). -/
def sortByName (l : List (String × α)) : List (String × α) :=
  l.insertionSort nameLE

/-- Embedding of Python's `str.endswith`, over character sequences. -/
def strEndsWith (s post : String) : Bool := post.toList.isSuffixOf s.toList

/-- The inner entries that get processed: names sorted, then only the ones
with a `.csv` suffix; other entries are skipped, not an error. -/
def csvEntries (es : List (String × List RawCsvRow)) :
    List (String × List RawCsvRow) :=
  (sortByName es).filter (fun e => strEndsWith e.1 ".csv")

/-- The walk over one inner archive: each qualifying CSV entry in sorted
name order is run through `process_csv_file`; the first exception aborts
the walk. -/
def walkChild (sel : List Int) (es : List (String × List RawCsvRow)) :
    Except Err (List (List OutRow)) :=
  exceptMap (fun e => process_csv_file e.2 sel) (csvEntries es)

/-- Opening one outer entry as `zipfile.ZipFile(io.BytesIO(...))`. -/
def openChild : ChildEntry → Except Err (List (String × List RawCsvRow))
  | .corrupt => .error .archiveError
  | .archive es => .ok es

/-- The full walk of the outer archive: outer entries in sorted name order,
each opened as an inner zip and walked; the result is the accumulator list
`dfs` of per-CSV tables, in visiting order. -/
def walkOuter (z : OuterArchive) (sel : List Int) :
    Except Err (List (List OutRow)) := do
  let ls ← exceptMap
    (fun e => do
      let es ← openChild e.2
      walkChild sel es)
    (sortByName z.entries)
  .ok ls.flatten

/-- Embedding of `process_zip_file`: walk the archive, then
`pd.concat(dfs, ignore_index=True)` — which raises `ValueError` when `dfs`
is the empty list, and otherwise concatenates. -/
def process_zip_file (z : OuterArchive) (sel : List Int) :
    Except Err (List OutRow) := do
  let dfs ← walkOuter z sel
  if dfs.isEmpty then .error .concatError else .ok dfs.flatten

/-- The output file name for one yearly archive: `traffic_volume_` plus the
last four characters of the archive's stem plus the parquet suffix. -/
def outputName (stem : String) : String :=
  "traffic_volume_" ++ stem.takeRight 4 ++ ".parquet"

/-- The driver loop of `main` over the sorted archive list: each year is
processed and its result persisted before the next is taken up.  There is
no exception handler in `main`, so the first raised exception terminates
the loop; the pair collects the persisted files and the terminating
exception, if any. -/
def mainLoop (sel : List Int) :
    List (String × OuterArchive) → List (String × List OutRow) × Option Err
  | [] => ([], none)
  | (stem, z) :: rest =>
    match process_zip_file z sel with
    | .error e => ([], some e)
    | .ok t =>
      let res := mainLoop sel rest
      ((outputName stem, t) :: res.1, res.2)

/-- Embedding of `main`: compute the selected sites once, then run the
driver loop over the yearly archives in sorted name order. -/
def main (site_df : List SiteRecord) (zips : List (String × OuterArchive)) :
    List (String × List OutRow) × Option Err :=
  mainLoop (map_suburb_2_site site_df) (sortByName zips)

/-- The outputs persisted for a list of archives all of which process
successfully: one file per archive, holding that archive's own table. -/
def writesOf (sel : List Int) (l : List (String × OuterArchive)) :
    List (String × List OutRow) :=
  l.filterMap (fun p =>
    (process_zip_file p.2 sel).toOption.map (fun t => (outputName p.1, t)))

/-! Concrete sample inputs, used by witnesses and counterexamples. -/

/-- The quarter-hour cells of the spec's concrete scenario: `5, -3, 0, 2`
followed by 92 zeros. -/
def specVols : List (Option Int) :=
  some 5 :: some (-3) :: some 0 :: some 2 :: List.replicate 92 (some 0)

/-- The raw CSV row of the spec's concrete scenario: site 100, detector 1,
`working_period_count` 96. -/
def specRow : RawCsvRow :=
  { nb_scats_site := some 100
    qt_interval_count := "2024-01-01"
    nb_detector := some 1
    ct_records := some 96
    vols := specVols }

/-- The parsed form of `specRow`. -/
def specParsed : RawRow := ⟨100, "2024-01-01", 1, 96, specVols⟩

/-- Quarter-hour cells with one value beyond the signed 16-bit range and
one negative value. -/
def wrapVols : List (Option Int) :=
  some 40000 :: some (-1) :: List.replicate 94 (some 0)

/-- A raw CSV row holding `wrapVols`. -/
def wrapRow : RawCsvRow := { specRow with vols := wrapVols }

/-- The parsed form of `wrapRow`. -/
def wrapParsed : RawRow := ⟨100, "2024-01-01", 1, 96, wrapVols⟩

/-- A raw CSV row like `specRow` but with a missing
`CT_RECORDS` (working-period-count) cell. -/
def noWpcRow : RawCsvRow := { specRow with ct_records := none }

/-- Ninety-six all-zero quarter-hour cells. -/
def zeroVols : List (Option Int) := List.replicate 96 (some 0)

/-- A raw CSV row whose 96 cells are all zero. -/
def zeroRow : RawCsvRow := { specRow with vols := zeroVols }

/-- The parsed form of `zeroRow`. -/
def zeroParsed : RawRow := ⟨100, "2024-01-01", 1, 96, zeroVols⟩

/-- A yearly archive whose single inner entry is not a valid zip. -/
def badYear : OuterArchive := ⟨[("c.zip", .corrupt)]⟩

/-- A yearly archive with one inner archive holding one empty CSV. -/
def goodYear : OuterArchive := ⟨[("d.zip", .archive [("e.csv", [])])]⟩

/-- A two-entry outer archive, entries listed out of name order. -/
def permAYear : OuterArchive :=
  ⟨[("b.zip", .archive [("a.csv", [specRow])]), ("a.zip", .archive [("c.csv", [])])]⟩

/-- The same outer archive as `permAYear`, entries listed in the other
order. -/
def permBYear : OuterArchive :=
  ⟨[("a.zip", .archive [("c.csv", [])]), ("b.zip", .archive [("a.csv", [specRow])])]⟩

/-! Helper lemmas shared by the claim theorems. -/

theorem melt_nil : melt [] = [] := by
  simp [melt]

theorem length_melt (ws : List WideRow) : (melt ws).length = 24 * ws.length := by
  simp only [melt, List.length_flatMap, Function.comp_def, List.length_map,
    List.map_const', List.sum_replicate, List.length_range, smul_eq_mul]

theorem mem_melt {o : OutRow} {ws : List WideRow} :
    o ∈ melt ws ↔ ∃ h < 24, ∃ w ∈ ws, o = meltRow h w := by
  simp only [melt, List.mem_flatMap, List.mem_range, List.mem_map]
  constructor
  · rintro ⟨h, hh, w, hw, rfl⟩
    exact ⟨h, hh, w, hw, rfl⟩
  · rintro ⟨h, hh, w, hw, rfl⟩
    exact ⟨h, hh, w, hw, rfl⟩

theorem meltRow_mem_melt {h : Nat} {w : WideRow} {ws : List WideRow}
    (hh : h < 24) (hw : w ∈ ws) : meltRow h w ∈ melt ws :=
  mem_melt.mpr ⟨h, hh, w, hw, rfl⟩

theorem getD_range_map {f : Nat → Int} {i n : Nat} (h : i < n) (d : Int) :
    ((List.range n).map f).getD i d = f i := by
  rw [List.getD_eq_getElem?_getD, List.getElem?_map, List.getElem?_range h]
  rfl

theorem outRows_eq (csv : List RawCsvRow) (sel : List Int) :
    outRows (process_csv_file csv sel)
      = melt ((survivorsOfCsv csv sel).map cleanRow) := by
  unfold outRows process_csv_file survivorsOfCsv
  cases h : read_csv csv with
  | ok rows => simp [Except.toOption, h, Bind.bind, Except.bind]
  | error e => simp [Except.toOption, h, Bind.bind, Except.bind, melt_nil]

theorem int16wrap_eq_self {v : Int} (hlo : -32768 ≤ v) (hhi : v ≤ 32767) :
    int16wrap v = v := by
  unfold int16wrap
  rw [Int.emod_eq_of_lt (by omega) (by omega)]
  omega

theorem parseRow_error_eq {r : RawCsvRow} {e : Err}
    (h : parseRow r = .error e) : e = .parseError := by
  obtain ⟨s, q, d, c, v⟩ := r
  cases s <;> cases d <;> cases c <;>
    simp [parseRow, parseIntCell, Bind.bind, Except.bind] at h <;> simp_all

theorem parseRow_ct_none {r : RawCsvRow} (h : r.ct_records = none) :
    parseRow r = .error .parseError := by
  obtain ⟨s, q, d, c, v⟩ := r
  simp only at h
  subst h
  cases s <;> cases d <;>
    simp [parseRow, parseIntCell, Bind.bind, Except.bind]

theorem read_csv_error_of_ct_none {csv : List RawCsvRow} {r : RawCsvRow}
    (hr : r ∈ csv) (hc : r.ct_records = none) :
    read_csv csv = .error .parseError := by
  induction csv with
  | nil => cases hr
  | cons a as ih =>
    cases hr with
    | head =>
      simp [read_csv, exceptMap, parseRow_ct_none hc, Bind.bind, Except.bind]
    | tail _ hmem =>
      cases hp : parseRow a with
      | error e =>
        simp [read_csv, exceptMap, hp, Bind.bind, Except.bind,
          parseRow_error_eq hp]
      | ok rr =>
        have := ih hmem
        simp only [read_csv] at this
        simp [read_csv, exceptMap, hp, Bind.bind, Except.bind, this]

theorem flatten_eq_nil_of_all_nil {dfs : List (List OutRow)}
    (h : ∀ t ∈ dfs, t = []) : dfs.flatten = [] := by
  induction dfs with
  | nil => rfl
  | cons a as ih =>
    rw [List.flatten_cons, h a (List.mem_cons_self a as),
      ih (fun t ht => h t (List.mem_cons_of_mem a ht))]
    rfl

theorem sum_hourSlices (l : List Int) :
    ∀ n : Nat, ((List.range n).map (fun h => hourVolume l h)).sum
      = (l.take (4 * n)).sum
  | 0 => by simp
  | n + 1 => by
    rw [List.range_succ, List.map_append, List.sum_append, sum_hourSlices l n]
    have h4 : 4 * (n + 1) = 4 * n + 4 := by ring
    rw [h4, List.take_add, List.sum_append]
    simp only [List.map_cons, List.map_nil, List.sum_cons, List.sum_nil,
      hourVolume]
    have hc : n * 4 = 4 * n := by ring
    rw [hc]
    ring

theorem sortByName_perm (l : List (String × α)) : sortByName l |>.Perm l :=
  List.perm_insertionSort _ l

theorem sortByName_sorted (l : List (String × α)) :
    (sortByName l).Pairwise nameLE :=
  List.sorted_insertionSort _ l

theorem sortByName_strict_of_nodup {l : List (String × α)}
    (hn : (l.map Prod.fst).Nodup) :
    (sortByName l).Pairwise (fun a b => a.1.toList < b.1.toList) := by
  have h1 := sortByName_sorted l
  have hmap : ((sortByName l).map Prod.fst).Nodup :=
    ((sortByName_perm l).map Prod.fst).nodup_iff.mpr hn
  have h2 : (sortByName l).Pairwise (fun a b => a.1 ≠ b.1) :=
    List.pairwise_map.mp hmap
  exact (h1.and h2).imp (fun hab =>
    lt_of_le_of_ne hab.1 (fun hEq => hab.2 (String.toList_inj.mp hEq)))

theorem sortByName_eq_of_perm {l l' : List (String × α)}
    (hn : (l.map Prod.fst).Nodup) (hp : l.Perm l') :
    sortByName l = sortByName l' := by
  have hperm : (sortByName l).Perm (sortByName l') :=
    ((sortByName_perm l).trans hp).trans (sortByName_perm l').symm
  have hn' : (l'.map Prod.fst).Nodup := (hp.map Prod.fst).nodup_iff.mp hn
  haveI : IsAntisymm (String × α) (fun a b => a.1.toList < b.1.toList) :=
    ⟨fun _ _ h1 h2 => absurd (h1.trans h2) (lt_irrefl _)⟩
  exact List.eq_of_perm_of_sorted hperm (sortByName_strict_of_nodup hn)
    (sortByName_strict_of_nodup hn')

theorem mainLoop_append_of_ok (sel : List Int)
    (pre rest : List (String × OuterArchive)) (stem : String)
    (bad : OuterArchive) (e : Err)
    (hpre : ∀ p ∈ pre, (process_zip_file p.2 sel).isOk = true)
    (hbad : process_zip_file bad sel = .error e) :
    mainLoop sel (pre ++ (stem, bad) :: rest) = (writesOf sel pre, some e) := by
  induction pre with
  | nil => simp [mainLoop, hbad, writesOf]
  | cons p pre ih =>
    obtain ⟨pstem, pz⟩ := p
    have hp := hpre ⟨pstem, pz⟩ (List.mem_cons_self _ _)
    cases hx : process_zip_file pz sel with
    | error e2 => rw [hx] at hp; simp [Except.isOk, Except.toBool] at hp
    | ok t =>
      have ihres := ih (fun q hq => hpre q (List.mem_cons_of_mem _ hq))
      simp [mainLoop, hx, writesOf, Except.toOption, ihres]

/-! The claims. -/

/-- Claim C1, counterexample: a yearly archive in which zero CSV entries
qualify (its one inner archive holds only a non-CSV entry) does not give an
empty table — `pd.concat` on the empty accumulator raises `ValueError`, so
`process_zip_file` errors, contradicting the claim's "never an error". -/
theorem claim_C1_counterexample :
    process_zip_file ⟨[("inner.zip", .archive [("notes.txt", [])])]⟩ []
      = .error .concatError := by
  decide

/-- Claim C1 (amended): when at least one CSV entry qualifies during the
walk, a year in which zero rows survive cleaning yields the explicitly
empty table (of the output row type, so with the output schema); but when
zero CSV entries qualify, `process_zip_file` raises the `pd.concat`
`ValueError` instead of returning an empty table. -/
theorem claim_C1 (z : OuterArchive) (sel : List Int)
    (dfs : List (List OutRow)) (hw : walkOuter z sel = .ok dfs) :
    (dfs ≠ [] → (∀ t ∈ dfs, t = []) → process_zip_file z sel = .ok [])
    ∧ (dfs = [] → process_zip_file z sel = .error .concatError) := by
  constructor
  · intro hne hall
    unfold process_zip_file
    rw [hw]
    cases dfs with
    | nil => exact absurd rfl hne
    | cons a as =>
      simp [Bind.bind, Except.bind, List.isEmpty,
        flatten_eq_nil_of_all_nil hall]
  · intro h
    subst h
    unfold process_zip_file
    rw [hw]
    simp [Bind.bind, Except.bind, List.isEmpty]

/-- Claim C1, witness: an archive with one qualifying CSV whose table is
empty makes `process_zip_file` return the explicitly empty table. -/
theorem claim_C1_witness :
    process_zip_file ⟨[("inner.zip", .archive [("a.csv", [])])]⟩ [] = .ok [] :=
  (claim_C1 _ [] [[]] (by decide)).1 (by decide) (by decide)

/-- Claim C2, counterexample: with a failing year (2020, corrupt inner
archive) followed by a processable year (2021), the driver writes nothing
at all — the 2021 archive, although processable on its own (second
conjunct), is never attempted, contradicting "the driver still attempts
every subsequent year's archive". -/
theorem claim_C2_counterexample :
    main [] [("data2020", badYear), ("data2021", goodYear)]
      = ([], some .archiveError)
    ∧ process_zip_file goodYear [] = .ok [] := by
  constructor <;> decide

/-- Claim C2 (amended): `main` has no exception handler, so when the
archive of one year raises (SchemaError, ParseError or ArchiveError), the
driver halts: the persisted outputs are exactly the per-archive results of
the successfully processed prefix (so files persisted for prior years
remain valid), and no subsequent year is attempted — the result does not
depend on the archives after the failing one. -/
theorem claim_C2 (site_df : List SiteRecord)
    (zips pre rest : List (String × OuterArchive)) (stem : String)
    (bad : OuterArchive) (e : Err)
    (hsort : sortByName zips = pre ++ (stem, bad) :: rest)
    (hpre : ∀ p ∈ pre,
      (process_zip_file p.2 (map_suburb_2_site site_df)).isOk = true)
    (hbad : process_zip_file bad (map_suburb_2_site site_df) = .error e) :
    main site_df zips = (writesOf (map_suburb_2_site site_df) pre, some e) := by
  unfold main
  rw [hsort]
  exact mainLoop_append_of_ok _ pre rest stem bad e hpre hbad

/-- Claim C2, witness: the amended statement applied to a concrete pair of
years in which the earlier year fails. -/
theorem claim_C2_witness :
    main [] [("data2021", goodYear), ("data2020", badYear)]
      = ([], some .archiveError) :=
  claim_C2 [] [("data2021", goodYear), ("data2020", badYear)] []
    [("data2021", goodYear)] "data2020" badYear .archiveError
    (by decide) (by decide) (by decide)

/-- Claim C10, counterexample: a row that is selected and would survive
filtering but has a missing `working_period_count` cell does not get the
value filled to 0 — `pd.read_csv` under the integer dtype of `CT_RECORDS`
raises for the whole file, so `process_csv_file` errors instead of
producing output rows. -/
theorem claim_C10_counterexample :
    process_csv_file [noWpcRow] [100] = .error .parseError := by
  decide

/-- Claim C10 (amended): the `fillna(0)` call is frame-wide, but the
integer-dtyped columns can never be null when it runs: a CSV containing any
row with a missing `working_period_count` cell makes `pd.read_csv` raise, a
ParseError for the whole file, rather than treating the value as 0. -/
theorem claim_C10 (csv : List RawCsvRow) (sel : List Int) (r : RawCsvRow)
    (hr : r ∈ csv) (hc : r.ct_records = none) :
    process_csv_file csv sel = .error .parseError := by
  unfold process_csv_file
  rw [read_csv_error_of_ct_none hr hc]
  rfl

/-- Claim C10, witness: the amended statement applied to a concrete file. -/
theorem claim_C10_witness :
    process_csv_file [specRow, noWpcRow] [7] = .error .parseError :=
  claim_C10 [specRow, noWpcRow] [7] noWpcRow (by decide) (by decide)

/-- Claim C8, counterexample: a site table whose qualifying site has
`site_id = 40000` makes `map_suburb_2_site` return `-25536` — the
`astype("int16")` cast wraps the value — so the returned collection is not
the set of qualifying `site_id` values. -/
theorem claim_C8_counterexample :
    map_suburb_2_site [⟨40000, "site", "Richmond"⟩] = [-25536]
    ∧ (40000 : Int) ∉ map_suburb_2_site [⟨40000, "site", "Richmond"⟩] := by
  constructor <;> decide

/-- Claim C8 (amended): provided every `site_id` of the table fits in the
signed 16-bit range, `map_suburb_2_site` returns exactly the `site_id`
values whose `suburb` is string-equal to an entry of the fixed allow-list
and nothing else, and when no site qualifies it returns the empty
collection as a valid, non-error result; without the range proviso the
returned values are the 16-bit-wrapped ids. -/
theorem claim_C8 (t : List SiteRecord)
    (hrange : ∀ r ∈ t, -32768 ≤ r.site_id ∧ r.site_id ≤ 32767) :
    map_suburb_2_site t
      = (t.filter (fun r => SELECTED_SUBURBS.contains r.suburb)).map
          (fun r => r.site_id)
    ∧ (∀ x : Int, x ∈ map_suburb_2_site t ↔
        ∃ r ∈ t, r.suburb ∈ SELECTED_SUBURBS ∧ r.site_id = x)
    ∧ ((∀ r ∈ t, r.suburb ∉ SELECTED_SUBURBS) → map_suburb_2_site t = []) := by
  have hmain : map_suburb_2_site t
      = (t.filter (fun r => SELECTED_SUBURBS.contains r.suburb)).map
          (fun r => r.site_id) := by
    unfold map_suburb_2_site
    refine List.map_congr_left (fun r hr => ?_)
    have hrt : r ∈ t := (List.mem_filter.mp hr).1
    exact int16wrap_eq_self (hrange r hrt).1 (hrange r hrt).2
  refine ⟨hmain, ?_, ?_⟩
  · intro x
    rw [hmain]
    simp only [List.mem_map, List.mem_filter, List.contains, List.elem_iff]
    constructor
    · rintro ⟨r, ⟨hrt, hs⟩, rfl⟩
      exact ⟨r, hrt, hs, rfl⟩
    · rintro ⟨r, hrt, hs, rfl⟩
      exact ⟨r, ⟨hrt, hs⟩, rfl⟩
  · intro hnone
    rw [hmain, List.filter_eq_nil_iff.mpr
      (fun r hrt => by simpa [List.contains, List.elem_iff] using hnone r hrt)]
    rfl

/-- Claim C8, witness: the amended statement applied to a concrete site
table with one qualifying and one non-qualifying site. -/
theorem claim_C8_witness :
    map_suburb_2_site [⟨100, "s", "Richmond"⟩, ⟨200, "t", "Nowhere"⟩]
      = (([⟨100, "s", "Richmond"⟩, ⟨200, "t", "Nowhere"⟩] :
            List SiteRecord).filter
          (fun r => SELECTED_SUBURBS.contains r.suburb)).map
          (fun r => r.site_id) :=
  (claim_C8 [⟨100, "s", "Richmond"⟩, ⟨200, "t", "Nowhere"⟩] (by decide)).1

theorem hasPositive_iff {vols : List (Option Int)} :
    hasPositive vols = true ↔ ∃ c ∈ vols, 0 < fillZero c := by
  simp only [hasPositive, List.any_eq_true]
  constructor
  · rintro ⟨c, hc, h⟩
    cases c with
    | none => simp at h
    | some v => exact ⟨some v, hc, by simpa [fillZero] using h⟩
  · rintro ⟨c, hc, h⟩
    cases c with
    | none => simp [fillZero] at h
    | some v => exact ⟨some v, hc, by simpa [fillZero] using h⟩

theorem mem_survivorsOfCsv {csv : List RawCsvRow} {sel : List Int}
    {s : RawRow} (hs : s ∈ survivorsOfCsv csv sel) :
    hasPositive s.vols = true := by
  unfold survivorsOfCsv at hs
  cases h : read_csv csv with
  | ok rows =>
    rw [h] at hs
    have hs' : s ∈ (rows.filter (fun r => sel.contains r.site_id)).filter
        (fun r => hasPositive r.vols) := hs
    simpa using List.of_mem_filter hs'
  | error e =>
    rw [h] at hs
    have hs' : s ∈ ([] : List RawRow) := hs
    exact absurd hs' (List.not_mem_nil s)

theorem correctedVols_nonneg_of_bounded {vols : List (Option Int)}
    (hb : ∀ c ∈ vols, fillZero c ≤ 32767) :
    ∀ x ∈ correctedVols vols, 0 ≤ x := by
  intro x hx
  obtain ⟨c, hc, rfl⟩ := List.mem_map.mp hx
  by_cases hneg : fillZero c < 0
  · simp only [hneg, if_pos]
    rw [int16wrap_eq_self (by omega) (by omega)]
  · have h0 : 0 ≤ fillZero c := le_of_not_lt hneg
    rw [if_neg hneg, int16wrap_eq_self (by omega) (hb c hc)]
    exact h0

/-- Claim C4: a raw row all of whose 96 volume cells are null or
nonpositive is not among the surviving rows — the filter runs on the raw
pre-fill, pre-correction cells, so every survivor has a raw positive cell —
and the output consists of exactly 24 rows per surviving row, so the
all-null-or-nonpositive row contributes no output row. -/
theorem claim_C4 (csv : List RawCsvRow) (sel : List Int) (r : RawRow)
    (_hr : r ∈ rowsOfCsv csv) (hall : ∀ c ∈ r.vols, fillZero c ≤ 0) :
    r ∉ survivorsOfCsv csv sel
    ∧ (∀ s ∈ survivorsOfCsv csv sel, ∃ c ∈ s.vols, 0 < fillZero c)
    ∧ (outRows (process_csv_file csv sel)).length
        = 24 * (survivorsOfCsv csv sel).length := by
  have hsurv : ∀ s ∈ survivorsOfCsv csv sel, ∃ c ∈ s.vols, 0 < fillZero c :=
    fun s hs => hasPositive_iff.mp (mem_survivorsOfCsv hs)
  refine ⟨?_, hsurv, ?_⟩
  · intro hmem
    obtain ⟨c, hc, hpos⟩ := hsurv r hmem
    exact absurd (hall c hc) (not_le.mpr hpos)
  · rw [outRows_eq, length_melt, List.length_map]

/-- Claim C4, witness: the all-zero row of a concrete two-row file is not a
survivor, and the file's output size is 24 times its survivor count. -/
theorem claim_C4_witness :
    zeroParsed ∉ survivorsOfCsv [zeroRow, specRow] [100]
    ∧ (outRows (process_csv_file [zeroRow, specRow] [100])).length
        = 24 * (survivorsOfCsv [zeroRow, specRow] [100]).length :=
  ⟨(claim_C4 [zeroRow, specRow] [100] zeroParsed (by decide) (by decide)).1,
   (claim_C4 [zeroRow, specRow] [100] zeroParsed (by decide) (by decide)).2.2⟩

/-- Claim C6: every surviving source row fans out to exactly 24 output rows
(the output length is 24 times the survivor count and, for each hour index
`h < 24`, the row built from the survivor for hour `h+1` is in the output),
all 24 sharing the survivor's `datetime`, `site_id`, `detector_id` and the
survivor's corrected `working_period_count`. -/
theorem claim_C6 (csv : List RawCsvRow) (sel : List Int) :
    (outRows (process_csv_file csv sel)).length
        = 24 * (survivorsOfCsv csv sel).length
    ∧ ∀ r ∈ survivorsOfCsv csv sel, ∀ h < 24,
        meltRow h (cleanRow r) ∈ outRows (process_csv_file csv sel)
        ∧ (meltRow h (cleanRow r)).hour = .str (toString (h + 1))
        ∧ (meltRow h (cleanRow r)).datetime = r.datetime
        ∧ (meltRow h (cleanRow r)).site_id = r.site_id
        ∧ (meltRow h (cleanRow r)).detector_id = r.detector_id
        ∧ (meltRow h (cleanRow r)).working_period_count
            = (cleanRow r).working_period_count := by
  constructor
  · rw [outRows_eq, length_melt, List.length_map]
  · intro r hr h hh
    refine ⟨?_, rfl, rfl, rfl, rfl, rfl⟩
    rw [outRows_eq]
    exact meltRow_mem_melt hh (List.mem_map.mpr ⟨r, hr, rfl⟩)

/-- Claim C6, witness: the fan-out applied to the concrete scenario row at
hour index 5. -/
theorem claim_C6_witness :
    (outRows (process_csv_file [specRow] [100])).length
        = 24 * (survivorsOfCsv [specRow] [100]).length
    ∧ meltRow 5 (cleanRow specParsed)
        ∈ outRows (process_csv_file [specRow] [100]) :=
  ⟨(claim_C6 [specRow] [100]).1,
   ((claim_C6 [specRow] [100]).2 specParsed (by decide) 5 (by decide)).1⟩

/-- Claim C5: for a row, the output volume of hour `h` (1-indexed) is the
sum of the four post-correction quarter-hour cells at chronological
positions `4(h-1)+1 .. 4(h-1)+4`, and when the row has its 96 cells the 24
hourly volumes sum to the sum of all 96 corrected cells. -/
theorem claim_C5 (r : RawRow) (h : Nat) (h1 : 1 ≤ h) (h24 : h ≤ 24) :
    (meltRow (h - 1) (cleanRow r)).volume
      = (((correctedVols r.vols).drop ((h - 1) * 4)).take 4).sum
    ∧ (r.vols.length = 96 →
        ((List.range 24).map (fun k => (meltRow k (cleanRow r)).volume)).sum
          = (correctedVols r.vols).sum) := by
  have hvol : ∀ k, k < 24 → (meltRow k (cleanRow r)).volume
      = hourVolume (correctedVols r.vols) k := by
    intro k hk
    show (cleanRow r).hourly.getD k 0 = _
    unfold cleanRow
    exact getD_range_map hk 0
  constructor
  · rw [hvol (h - 1) (by omega)]
    rfl
  · intro hlen
    rw [List.map_congr_left (fun k hk => hvol k (List.mem_range.mp hk))]
    rw [sum_hourSlices (correctedVols r.vols) 24]
    have hlcv : (correctedVols r.vols).length = 96 := by
      simp [correctedVols, hlen]
    rw [List.take_of_length_le (by omega)]

/-- Claim C5, witness: the aggregation equalities applied to the concrete
scenario row at hour 1. -/
theorem claim_C5_witness :
    (meltRow 0 (cleanRow specParsed)).volume
      = (((correctedVols specParsed.vols).drop (0 * 4)).take 4).sum
    ∧ ((List.range 24).map
          (fun k => (meltRow k (cleanRow specParsed)).volume)).sum
        = (correctedVols specParsed.vols).sum :=
  ⟨(claim_C5 specParsed 1 (by decide) (by decide)).1,
   (claim_C5 specParsed 1 (by decide) (by decide)).2 (by decide)⟩

/-- Claim C3, counterexample: the concrete row has one negative cell (so it
meets the claim's premise `k = 1`, `w = 96`) and one cell of 40000; the
`astype("int16")` cast wraps 40000 to −25536 before aggregation, so the
output of `process_csv_file` contains a negative volume, contradicting "no
volume value in the output is negative". -/
theorem claim_C3_counterexample :
    negCount wrapParsed.vols = 1
    ∧ wrapParsed ∈ survivorsOfCsv [wrapRow] [100]
    ∧ (outRows (process_csv_file [wrapRow] [100])).any
        (fun o => decide (o.volume < 0)) = true := by
  refine ⟨by decide, by decide, by decide⟩

/-- Claim C3 (amended): every surviving row with `k ≥ 1` negative cells and
original `working_period_count = w` yields output rows that all report
exactly `w - k` (no clamping, even below zero), and — provided every volume
cell is at most 32767, the top of the signed 16-bit range the cells are
cast into — no volume value in the output is negative; a larger cell wraps
and can turn an output volume negative. -/
theorem claim_C3 (csv : List RawCsvRow) (sel : List Int) :
    (∀ r ∈ survivorsOfCsv csv sel, 1 ≤ negCount r.vols →
      ∀ h < 24,
        (meltRow h (cleanRow r)).working_period_count
          = r.working_period_count - (negCount r.vols : Int)
        ∧ meltRow h (cleanRow r) ∈ outRows (process_csv_file csv sel))
    ∧ ((∀ r ∈ survivorsOfCsv csv sel, ∀ c ∈ r.vols, fillZero c ≤ 32767) →
        ∀ o ∈ outRows (process_csv_file csv sel), 0 ≤ o.volume) := by
  constructor
  · intro r hr _ h hh
    refine ⟨rfl, ?_⟩
    rw [outRows_eq]
    exact meltRow_mem_melt hh (List.mem_map.mpr ⟨r, hr, rfl⟩)
  · intro hb o ho
    rw [outRows_eq] at ho
    obtain ⟨h, hh, w, hw, rfl⟩ := mem_melt.mp ho
    obtain ⟨r, hr, rfl⟩ := List.mem_map.mp hw
    have hvol : (meltRow h (cleanRow r)).volume
        = hourVolume (correctedVols r.vols) h := by
      show (cleanRow r).hourly.getD h 0 = _
      unfold cleanRow
      exact getD_range_map hh 0
    rw [hvol]
    refine List.sum_nonneg (fun x hx => ?_)
    have hxcv : x ∈ correctedVols r.vols :=
      List.drop_subset _ _ (List.take_subset _ _ hx)
    exact correctedVols_nonneg_of_bounded (hb r hr) x hxcv

/-- Claim C3, witness: the working-period decrement and volume
non-negativity applied to the concrete scenario row (one negative cell,
`w = 96`, all cells within the 16-bit range). -/
theorem claim_C3_witness :
    ((meltRow 0 (cleanRow specParsed)).working_period_count
        = specParsed.working_period_count - (negCount specParsed.vols : Int)
      ∧ meltRow 0 (cleanRow specParsed)
          ∈ outRows (process_csv_file [specRow] [100]))
    ∧ 0 ≤ (meltRow 0 (cleanRow specParsed)).volume :=
  ⟨(claim_C3 [specRow] [100]).1 specParsed (by decide) (by decide) 0
      (by decide),
   (claim_C3 [specRow] [100]).2 (by decide) (meltRow 0 (cleanRow specParsed))
      (by decide)⟩

/-- Claim C7, counterexample: the output of `process_csv_file` on the
concrete scenario is non-empty (24 rows) yet not a single row carries an
integer-typed `hour` value — `melt` fills the `hour` column with the hourly
column labels, which the source builds as strings. -/
theorem claim_C7_counterexample :
    (outRows (process_csv_file [specRow] [100])).length = 24
    ∧ (outRows (process_csv_file [specRow] [100])).all
        (fun o => match o.hour with
          | .int _ => true
          | .str _ => false) = false := by
  refine ⟨by decide, by decide⟩

/-- Claim C7 (amended): in every output table of `process_csv_file` the
`hour` column holds the decimal string labels of the hours — every value is
`PdVal.str (toString n)` for some `n` with `1 ≤ n ≤ 24` — not integer
values. -/
theorem claim_C7 (csv : List RawCsvRow) (sel : List Int) (o : OutRow)
    (ho : o ∈ outRows (process_csv_file csv sel)) :
    ∃ n : Nat, 1 ≤ n ∧ n ≤ 24 ∧ o.hour = .str (toString n) := by
  rw [outRows_eq] at ho
  obtain ⟨h, hh, w, _, rfl⟩ := mem_melt.mp ho
  exact ⟨h + 1, by omega, by omega, rfl⟩

/-- Claim C7, witness: the amended statement applied to the first output
row of the concrete scenario. -/
theorem claim_C7_witness :
    ∃ n : Nat, 1 ≤ n ∧ n ≤ 24
      ∧ (meltRow 0 (cleanRow specParsed)).hour = .str (toString n) :=
  claim_C7 [specRow] [100] (meltRow 0 (cleanRow specParsed)) (by decide)

/-- Claim C9: the Archive Walker's traversal is deterministic and in
lexicographic name order: reordering the outer entry list (with distinct
names) does not change the result of `process_zip_file`, reordering an
inner entry list (with distinct names) does not change the walk of that
inner archive, the outer entries are visited with names pairwise in
nondecreasing `String` order, and so are the processed CSV entries of each
inner archive. -/
theorem claim_C9 (sel : List Int) :
    (∀ x y : OuterArchive, (x.entries.map Prod.fst).Nodup →
        x.entries.Perm y.entries →
        process_zip_file x sel = process_zip_file y sel)
    ∧ (∀ es es' : List (String × List RawCsvRow), (es.map Prod.fst).Nodup →
        es.Perm es' → walkChild sel es = walkChild sel es')
    ∧ (∀ z : OuterArchive,
        ((sortByName z.entries).map (fun e => e.1)).Pairwise (· ≤ ·))
    ∧ (∀ es : List (String × List RawCsvRow),
        ((csvEntries es).map (fun e => e.1)).Pairwise (· ≤ ·)) := by
  have hmap : ∀ {β : Type} (l : List (String × β)),
      l.Pairwise nameLE → (l.map (fun e => e.1)).Pairwise (· ≤ ·) := by
    intro β l hl
    exact List.pairwise_map.mpr
      (hl.imp (fun hab => String.le_iff_toList_le.mpr hab))
  refine ⟨?_, ?_, ?_, ?_⟩
  · intro x y hn hp
    unfold process_zip_file walkOuter
    rw [sortByName_eq_of_perm hn hp]
  · intro es es' hn hp
    unfold walkChild csvEntries
    rw [sortByName_eq_of_perm hn hp]
  · intro z
    exact hmap _ (sortByName_sorted z.entries)
  · intro es
    exact hmap _ ((sortByName_sorted es).sublist (List.filter_sublist _))

/-- Claim C9, witness: the order and reorder-invariance facts applied to a
concrete archive listed in two different orders. -/
theorem claim_C9_witness :
    process_zip_file permAYear [100] = process_zip_file permBYear [100]
    ∧ walkChild [100] [("b.csv", []), ("a.csv", [])]
        = walkChild [100] [("a.csv", []), ("b.csv", [])]
    ∧ ((sortByName permAYear.entries).map (fun e => e.1)).Pairwise (· ≤ ·)
    ∧ ((csvEntries [("b.csv", []), ("x.txt", []), ("a.csv", [])]).map
        (fun e => e.1)).Pairwise (· ≤ ·) :=
  ⟨(claim_C9 [100]).1 permAYear permBYear (by decide) (by decide),
   (claim_C9 [100]).2.1 _ _ (by decide) (by decide),
   (claim_C9 [100]).2.2.1 permAYear,
   (claim_C9 [100]).2.2.2 _⟩

end EtlPipeline
